import Mathlib

/-!
Shallow embedding of `src/server/src/server.ts` of bash-language-server.

The server glues collaborators together: an `Analyzer`, the `Executables`
registry, the `Builtins` and `ReservedWords` documentation modules and the
`config` module.  Only `server.ts` is part of the sources; the collaborators
are modelled by their interfaces (the functions `server.ts` calls on them),
exactly as the spec treats them.  Strings of the program are modelled as
lists of characters; `null` values of TypeScript become `Option`;
a promise that can reject becomes `Except Str`.
-/

/-- Strings of the embedded program, modelled as lists of characters. -/
abbrev Str := List Char

/-- JavaScript `s.startsWith(pre)`: `pre` is a prefix of `s`. -/
def strStartsWith (s pre : Str) : Bool := List.isPrefixOf pre s

/-- The string literal `'error'` compared against an explainshell response status. -/
def errorStr : Str := ['e', 'r', 'r', 'o', 'r']

/-- The string literal `'markdown'` used as a `MarkupContent` kind. -/
def markdownStr : Str := ['m', 'a', 'r', 'k', 'd', 'o', 'w', 'n']

/-- JavaScript `xs.join(sep)` on a list of strings. -/
def strJoin (sep : Str) (xs : List Str) : Str := (xs.intersperse sep).flatten

/-- The fenced man-page block `['``` man', doc, '```'].join('\n')` built by the
    server for hover and completion documentation. -/
def manCodeBlock (doc : Str) : Str :=
  strJoin ['\n'] [['`', '`', '`', ' ', 'm', 'a', 'n'], doc, ['`', '`', '`']]

/-- An LSP position: zero-based line and character. -/
structure Position where
  line : Nat
  character : Nat
deriving DecidableEq

/-- An LSP range: start and end positions. -/
structure Range where
  start : Position
  «end» : Position
deriving DecidableEq

/-- An LSP location: a document URI together with a range inside it. -/
structure Location where
  uri : Str
  range : Range
deriving DecidableEq

/-- An occurrence of a name inside a document as the Analyzer reports it:
    the document's URI and the range of the mention.  `onDocumentHighlight`
    keeps only the `range` field of each occurrence. -/
structure Occurrence where
  uri : Str
  range : Range
deriving DecidableEq

/-- An LSP document highlight as the server builds it: only a range. -/
structure DocumentHighlight where
  range : Range
deriving DecidableEq

/-- An LSP diagnostic: range, message and severity. -/
structure Diagnostic where
  range : Range
  message : Str
  severity : Nat
deriving DecidableEq

/-- The parameters of `connection.sendDiagnostics`. -/
structure PublishDiagnosticsParams where
  uri : Str
  diagnostics : List Diagnostic
deriving DecidableEq

/-- An LSP text document: URI and full text (full-document sync). -/
structure TextDocument where
  uri : Str
  text : Str
deriving DecidableEq

/-- The `textDocument` field of request parameters. -/
structure TextDocumentIdentifier where
  uri : Str
deriving DecidableEq

/-- LSP `TextDocumentPositionParams`: a document and a position in it. -/
structure TextDocumentPositionParams where
  textDocument : TextDocumentIdentifier
  position : Position
deriving DecidableEq

/-- LSP markup content: a kind tag (`'markdown'`) and the text. -/
structure MarkupContent where
  value : Str
  kind : Str
deriving DecidableEq

/-- An LSP hover result: markup contents. -/
structure Hover where
  contents : MarkupContent
deriving DecidableEq

/-- The LSP symbol kinds the server uses for completion items. -/
inductive SymbolKind where
  | File
  | Function
  | Variable
  | Interface
deriving DecidableEq

/-- Modelled from the spec: the tagged-variant discriminator of completion
    candidates (`CompletionItemDataType` of `types.ts`, which is not among
    the sources) — symbols, builtins, executables and reserved words. -/
inductive CompletionItemDataType where
  | Symbol
  | Builtin
  | Executable
  | ReservedWord
deriving DecidableEq

/-- The `data` payload the server attaches to completion items: the
    candidate's name and its kind discriminator. -/
structure CompletionItemData where
  name : Str
  type : CompletionItemDataType
deriving DecidableEq

/-- A completion item as the server builds it (`BashCompletionItem`):
    label, LSP symbol kind, the `data` payload, and the optional
    documentation that `onCompletionResolve` may add. -/
structure BashCompletionItem where
  label : Str
  kind : SymbolKind
  data : CompletionItemData
  documentation : Option MarkupContent := none
deriving DecidableEq

/-- The response of `analyzer.getExplainshellDocumentation`: the fields
    `onHover` reads (`status`, compared with `'error'`, and `helpHTML`). -/
structure ExplainshellResponse where
  status : Str
  helpHTML : Str
deriving DecidableEq

/-- The tree-sitter parser produced by `initializeParser()`; the server only
    threads it into `Analyzer.fromRoot`, so it is modelled abstractly. -/
structure Parser where
  grammarLoaded : Bool
deriving DecidableEq

/-- The Analyzer collaborator, modelled by the query interface `server.ts`
    consumes (its implementation `analyser.ts` is not among the sources; the
    field types follow the calls in `server.ts` and the operation list of the
    spec).  A possibly-null word is `Option Str`. -/
structure Analyzer where
  wordAtPoint : Str → Nat → Nat → Option Str
  findDefinition : Option Str → List Location
  findReferences : Option Str → List Location
  findOccurrences : Str → Option Str → List Occurrence
  findSymbolCompletions : Str → List BashCompletionItem
  analyze : Str → TextDocument → List Diagnostic
  getExplainshellDocumentation : TextDocumentPositionParams → Str → ExplainshellResponse

/-- The Executables collaborator (`executables.ts`, not among the sources):
    the PATH executable names, the membership test, and the man-page lookup,
    which is a promise that can reject (`Except`). -/
structure Executables where
  list : List Str
  isExecutableOnPATH : Option Str → Bool
  documentation : Option Str → Except Str Str

/-- The Builtins module (`builtins.ts`, not among the sources): the builtin
    names, the membership test, and the fallible documentation lookup. -/
structure Builtins where
  LIST : List Str
  isBuiltin : Option Str → Bool
  documentation : Option Str → Except Str Str

/-- The ReservedWords module (`reservedWords.ts`, not among the sources):
    the reserved-word names, the membership test, and the fallible
    documentation lookup. -/
structure ReservedWords where
  LIST : List Str
  isReservedWord : Option Str → Bool
  documentation : Option Str → Except Str Str

/-- The `config` module: the explainshell endpoint (empty/absent modelled as
    `none`) and the highlight-parsing-error flag. -/
structure ServerConfig where
  explainshellEndpoint : Option Str
  highlightParsingError : Bool

/-- The `BashServer` instance built by `BashServer.initializeServer`: it owns the
    Executables registry and the Analyzer (the connection and the document
    store carry no logic of their own and are left out). -/
structure BashServer where
  executables : Executables
  analyzer : Analyzer

/-- Everything a registered request handler reads: the `BashServer` instance
    (`this`) plus the imported modules `Builtins`, `ReservedWords`, `config`
    and the external `TurndownService().turndown` renderer. -/
structure ServerEnv where
  server : BashServer
  builtins : Builtins
  reservedWords : ReservedWords
  config : ServerConfig
  turndown : Str → Str

/-- The static initialization method of `BashServer`: awaits
    `initializeParser()` first, then `Promise.all` of `Executables.fromPath`
    and `Analyzer.fromRoot` (the latter receives the parser), and only when
    all resolved constructs the `BashServer`.  The three steps are modelled
    by their outcomes: a rejected promise is `Except.error`. -/
def BashServer.initializeServer (initParserResult : Except Str Parser)
    (fromPathResult : Except Str Executables)
    (fromRootResult : Parser → Except Str Analyzer) : Except Str BashServer :=
  match initParserResult with
  | .error e => .error e
  | .ok parser =>
    match fromPathResult, fromRootResult parser with
    | .ok executables, .ok analyzer => .ok { executables := executables, analyzer := analyzer }
    | .error e, _ => .error e
    | .ok _, .error e => .error e

/-- `getWordAtPoint`: delegates to `analyzer.wordAtPoint` at the request's
    document URI and position. -/
def getWordAtPoint (env : ServerEnv) (params : TextDocumentPositionParams) : Option Str :=
  env.server.analyzer.wordAtPoint params.textDocument.uri
    params.position.line params.position.character

/-- The outcome of the `onDidChangeContent` handler registered in
    `register`: the calls made to `analyzer.analyze` and the diagnostics
    sent to the client, if any. -/
structure DidChangeContentResult where
  analyzeCalls : List (Str × TextDocument)
  sentDiagnostics : Option PublishDiagnosticsParams

/-- The `onDidChangeContent` handler from `register`: analyzes the changed
    document once, and sends the resulting diagnostics exactly when
    `config.getHighlightParsingError()` holds. -/
def onDidChangeContent (env : ServerEnv) (document : TextDocument) : DidChangeContentResult :=
  let uri := document.uri
  let diagnostics := env.server.analyzer.analyze uri document
  { analyzeCalls := [(uri, document)]
    sentDiagnostics :=
      if env.config.highlightParsingError then
        some { uri := document.uri, diagnostics := diagnostics }
      else none }

/-- The markdown hover contents `getMarkdownHoverItem` builds in `onHover`. -/
def getMarkdownHoverItem (doc : Str) : MarkupContent :=
  { value := manCodeBlock doc, kind := markdownStr }

/-- The part of `onHover` after the explainshell block: builtin
    documentation first, then reserved words, then PATH executables, else
    `null`.  A rejected documentation promise rejects the whole handler. -/
def onHoverFallback (env : ServerEnv) (word : Option Str) : Except Str (Option Hover) :=
  if env.builtins.isBuiltin word then
    (env.builtins.documentation word).map fun doc => some { contents := getMarkdownHoverItem doc }
  else if env.reservedWords.isReservedWord word then
    (env.reservedWords.documentation word).map fun doc =>
      some { contents := getMarkdownHoverItem doc }
  else if env.server.executables.isExecutableOnPATH word then
    (env.server.executables.documentation word).map fun doc =>
      some { contents := getMarkdownHoverItem doc }
  else
    .ok none

/-- `onHover`: if an explainshell endpoint is configured, query it; a
    non-error response is returned as a markdown hover, an error response is
    only logged and control falls through to the documentation lookups. -/
def onHover (env : ServerEnv) (params : TextDocumentPositionParams) :
    Except Str (Option Hover) :=
  let word := getWordAtPoint env params
  match env.config.explainshellEndpoint with
  | some endpoint =>
    let response := env.server.analyzer.getExplainshellDocumentation params endpoint
    if response.status = errorStr then
      onHoverFallback env word
    else
      .ok (some { contents := { kind := markdownStr, value := env.turndown response.helpHTML } })
  | none => onHoverFallback env word

/-- `onDefinition`: `findDefinition` of the word at the cursor (possibly
    null). -/
def onDefinition (env : ServerEnv) (params : TextDocumentPositionParams) : List Location :=
  let word := getWordAtPoint env params
  env.server.analyzer.findDefinition word

/-- `onDocumentHighlight`: one highlight per occurrence of the cursor word
    in the document, keeping only each occurrence's range. -/
def onDocumentHighlight (env : ServerEnv) (params : TextDocumentPositionParams) :
    List DocumentHighlight :=
  let word := getWordAtPoint env params
  (env.server.analyzer.findOccurrences params.textDocument.uri word).map
    fun n => { range := n.range }

/-- `onReferences`: `findReferences` of the word at the cursor. -/
def onReferences (env : ServerEnv) (params : TextDocumentPositionParams) : List Location :=
  let word := getWordAtPoint env params
  env.server.analyzer.findReferences word

/-- The reserved-word completion candidates built in `onCompletion`. -/
def reservedWordsCompletions (env : ServerEnv) : List BashCompletionItem :=
  env.reservedWords.LIST.map fun reservedWord =>
    { label := reservedWord
      kind := SymbolKind.Interface
      data := { name := reservedWord, type := CompletionItemDataType.ReservedWord } }

/-- The PATH-executable completion candidates built in `onCompletion`. -/
def programCompletions (env : ServerEnv) : List BashCompletionItem :=
  env.server.executables.list.map fun s =>
    { label := s
      kind := SymbolKind.Function
      data := { name := s, type := CompletionItemDataType.Executable } }

/-- The builtin completion candidates built in `onCompletion`. -/
def builtinsCompletions (env : ServerEnv) : List BashCompletionItem :=
  env.builtins.LIST.map fun builtin =>
    { label := builtin
      kind := SymbolKind.Interface
      data := { name := builtin, type := CompletionItemDataType.Builtin } }

/-- The full candidate list of `onCompletion`: reserved words, then the
    document's symbol completions, then PATH executables, then builtins. -/
def allCompletions (env : ServerEnv) (uri : Str) : List BashCompletionItem :=
  reservedWordsCompletions env ++ env.server.analyzer.findSymbolCompletions uri ++
    programCompletions env ++ builtinsCompletions env

/-- `onCompletion`: builds the candidate list; a truthy cursor word starting
    with `#` means the cursor is in a comment and suppresses all candidates;
    otherwise a truthy word filters the list to labels it is a prefix of.
    A null or empty word (both falsy in JavaScript) returns the full list. -/
def onCompletion (env : ServerEnv) (params : TextDocumentPositionParams) :
    List BashCompletionItem :=
  let word := getWordAtPoint env params
  match word with
  | some w =>
    if w.isEmpty then allCompletions env params.textDocument.uri
    else if strStartsWith w ['#'] then []
    else (allCompletions env params.textDocument.uri).filter fun item =>
      strStartsWith item.label w
  | none => allCompletions env params.textDocument.uri

/-- The completion item with markdown documentation added, as
    `getMarkdownCompletionItem` builds it in `onCompletionResolve`: all
    fields of the item unchanged, the documentation field set. -/
def getMarkdownCompletionItem (item : BashCompletionItem) (doc : Str) : BashCompletionItem :=
  { item with documentation := some { value := manCodeBlock doc, kind := markdownStr } }

/-- `onCompletionResolve`: looks up documentation according to the item's
    data type; the `try`/`catch` returns the item unchanged when the lookup
    rejects, and items of any other type are returned unchanged. -/
def onCompletionResolve (env : ServerEnv) (item : BashCompletionItem) : BashCompletionItem :=
  let name := item.data.name
  let attempt : Except Str BashCompletionItem :=
    match item.data.type with
    | CompletionItemDataType.Executable =>
      (env.server.executables.documentation (some name)).map fun doc =>
        getMarkdownCompletionItem item doc
    | CompletionItemDataType.Builtin =>
      (env.builtins.documentation (some name)).map fun doc =>
        getMarkdownCompletionItem item doc
    | CompletionItemDataType.ReservedWord =>
      (env.reservedWords.documentation (some name)).map fun doc =>
        getMarkdownCompletionItem item doc
    | _ => .ok item
  match attempt with
  | .ok result => result
  | .error _ => item

/-- The explainshell query, when configured, did not produce a hover for
    this request: either no endpoint is set, or the response status is
    `'error'`. -/
def explainshellReturnedNoHover (env : ServerEnv) (params : TextDocumentPositionParams) : Prop :=
  ∀ ep, env.config.explainshellEndpoint = some ep →
    (env.server.analyzer.getExplainshellDocumentation params ep).status = errorStr

/-- A concrete range used by the concrete collaborator instances below. -/
def sampleRange : Range :=
  { start := { line := 0, character := 0 }, «end» := { line := 0, character := 3 } }

/-- A concrete occurrence reported by the concrete Analyzer below. -/
def sampleOccurrence : Occurrence := { uri := ['u'], range := sampleRange }

/-- A concrete Analyzer instance: the word at every point is `w` and every
    explainshell query returns `resp`. -/
def testAnalyzer (w : Option Str) (resp : ExplainshellResponse) : Analyzer :=
  { wordAtPoint := fun _ _ _ => w
    findDefinition := fun _ => [{ uri := ['d'], range := sampleRange }]
    findReferences := fun _ => []
    findOccurrences := fun _ _ => [sampleOccurrence]
    findSymbolCompletions := fun _ => []
    analyze := fun _ _ => []
    getExplainshellDocumentation := fun _ _ => resp }

/-- A concrete Executables instance knowing the single program `ls`. -/
def testExecutables : Executables :=
  { list := [['l', 's']]
    isExecutableOnPATH := fun o => o == some ['l', 's']
    documentation := fun _ => .ok ['E'] }

/-- A concrete Builtins instance knowing the single builtin `cd`. -/
def testBuiltins : Builtins :=
  { LIST := [['c', 'd']]
    isBuiltin := fun o => o == some ['c', 'd']
    documentation := fun _ => .ok ['B'] }

/-- A concrete ReservedWords instance knowing the single word `if`. -/
def testReservedWords : ReservedWords :=
  { LIST := [['i', 'f']]
    isReservedWord := fun o => o == some ['i', 'f']
    documentation := fun _ => .ok ['R'] }

/-- A concrete server environment assembled from the instances above. -/
def testEnv (w : Option Str) (endpoint : Option Str) (resp : ExplainshellResponse)
    (flag : Bool) : ServerEnv :=
  { server := { executables := testExecutables, analyzer := testAnalyzer w resp }
    builtins := testBuiltins
    reservedWords := testReservedWords
    config := { explainshellEndpoint := endpoint, highlightParsingError := flag }
    turndown := fun s => s }

/-- Concrete request parameters. -/
def testParams : TextDocumentPositionParams :=
  { textDocument := { uri := ['u'] }, position := { line := 0, character := 0 } }

/-- A concrete explainshell response with status `'error'`. -/
def errorResponse : ExplainshellResponse := { status := errorStr, helpHTML := ['h'] }

/-- C1: if the cursor word is non-null and begins with the character `#`,
    `onCompletion` returns the empty list of completion candidates. -/
theorem onCompletion_comment_suppresses_completions (env : ServerEnv)
    (params : TextDocumentPositionParams) (w : Str)
    (hw : getWordAtPoint env params = some w)
    (hs : strStartsWith w ['#'] = true) :
    onCompletion env params = [] := by
  have hne : w.isEmpty = false := by
    cases w with
    | nil => simp [strStartsWith, List.isPrefixOf] at hs
    | cons c t => rfl
  simp [onCompletion, hw, hne, hs]

/-- Witness for C1 at the concrete cursor word `#a`. -/
theorem onCompletion_comment_suppresses_completions_witness :
    onCompletion (testEnv (some ['#', 'a']) none errorResponse true) testParams = [] :=
  onCompletion_comment_suppresses_completions
    (testEnv (some ['#', 'a']) none errorResponse true) testParams ['#', 'a'] rfl rfl

/-- C2: a `BashServer` is constructed only when grammar initialization, the
    PATH scan and the initial workspace scan have all resolved, and it is
    built exactly from the resolved executables and analyzer (every query
    handler is registered through this object). -/
theorem initialize_constructs_server_only_after_init_steps
    (initParserResult : Except Str Parser) (fromPathResult : Except Str Executables)
    (fromRootResult : Parser → Except Str Analyzer) (s : BashServer)
    (h : BashServer.initializeServer initParserResult fromPathResult fromRootResult = .ok s) :
    ∃ parser executables analyzer,
      initParserResult = .ok parser ∧ fromPathResult = .ok executables ∧
      fromRootResult parser = .ok analyzer ∧
      s = { executables := executables, analyzer := analyzer } := by
  cases hp : initParserResult with
  | error e => rw [hp] at h; simp [BashServer.initializeServer] at h
  | ok parser =>
    rw [hp] at h
    cases he : fromPathResult with
    | error e => rw [he] at h; simp [BashServer.initializeServer] at h
    | ok executables =>
      rw [he] at h
      simp only [BashServer.initializeServer] at h
      cases ha : fromRootResult parser with
      | error e => rw [ha] at h; simp at h
      | ok analyzer =>
        rw [ha] at h
        simp only [Except.ok.injEq] at h
        exact ⟨parser, executables, analyzer, rfl, rfl, ha, h.symm⟩

/-- Witness for C2 at concrete resolved initialization steps. -/
theorem initialize_constructs_server_witness :
    ∃ parser executables analyzer,
      (Except.ok { grammarLoaded := true } : Except Str Parser) = .ok parser ∧
      (Except.ok testExecutables : Except Str Executables) = .ok executables ∧
      (fun _ : Parser => (Except.ok (testAnalyzer none errorResponse) : Except Str Analyzer))
          parser = .ok analyzer ∧
      ({ executables := testExecutables, analyzer := testAnalyzer none errorResponse } :
          BashServer) = { executables := executables, analyzer := analyzer } :=
  initialize_constructs_server_only_after_init_steps
    (.ok { grammarLoaded := true }) (.ok testExecutables)
    (fun _ => .ok (testAnalyzer none errorResponse))
    { executables := testExecutables, analyzer := testAnalyzer none errorResponse } rfl

/-- C3: the content-change handler calls `analyzer.analyze` exactly once for
    the changed document, and the resulting diagnostics are sent to the
    client if and only if the highlight-parsing-error flag is enabled. -/
theorem onDidChangeContent_analyzes_once_and_gates_diagnostics
    (env : ServerEnv) (document : TextDocument) :
    (onDidChangeContent env document).analyzeCalls = [(document.uri, document)] ∧
    (env.config.highlightParsingError = true →
      (onDidChangeContent env document).sentDiagnostics =
        some { uri := document.uri,
               diagnostics := env.server.analyzer.analyze document.uri document }) ∧
    (env.config.highlightParsingError = false →
      (onDidChangeContent env document).sentDiagnostics = none) := by
  refine ⟨rfl, fun h => ?_, fun h => ?_⟩ <;> simp [onDidChangeContent, h]

/-- C4: `onCompletion` concatenates reserved words, the document's symbol
    completions, PATH executables and builtins in that order; a null word
    returns the full list, and a non-null word that is not `#`-prefixed
    keeps exactly the candidates whose label it is a prefix of, in order. -/
theorem onCompletion_candidate_order_and_filtering (env : ServerEnv)
    (params : TextDocumentPositionParams) :
    (getWordAtPoint env params = none →
      onCompletion env params = allCompletions env params.textDocument.uri) ∧
    (∀ w, getWordAtPoint env params = some w → strStartsWith w ['#'] = false →
      onCompletion env params =
        (allCompletions env params.textDocument.uri).filter fun item =>
          strStartsWith item.label w) := by
  constructor
  · intro hw
    simp [onCompletion, hw]
  · intro w hw hs
    cases w with
    | nil =>
      simp only [onCompletion, hw, List.isEmpty_nil, if_true]
      exact (List.filter_eq_self.mpr fun a _ => by
        simp [strStartsWith, List.isPrefixOf]).symm
    | cons c t =>
      simp [onCompletion, hw, hs]

/-- C5: if grammar initialization, the PATH scan or the workspace scan
    rejects, `BashServer.initializeServer` rejects with that error and no
    `BashServer` is constructed. -/
theorem initialize_propagates_init_failures (initParserResult : Except Str Parser)
    (fromPathResult : Except Str Executables)
    (fromRootResult : Parser → Except Str Analyzer) (e : Str) :
    (initParserResult = .error e →
      BashServer.initializeServer initParserResult fromPathResult fromRootResult = .error e) ∧
    (∀ parser, initParserResult = .ok parser → fromPathResult = .error e →
      BashServer.initializeServer initParserResult fromPathResult fromRootResult = .error e) ∧
    (∀ parser executables, initParserResult = .ok parser →
      fromPathResult = .ok executables → fromRootResult parser = .error e →
      BashServer.initializeServer initParserResult fromPathResult fromRootResult = .error e) := by
  refine ⟨fun h => ?_, fun parser hp he => ?_, fun parser executables hp he ha => ?_⟩
  · simp [BashServer.initializeServer, h]
  · simp [BashServer.initializeServer, hp, he]
  · simp [BashServer.initializeServer, hp, he, ha]

/-- C6: `onDefinition` returns exactly `findDefinition` of the word at the
    cursor, and passes a null word through unchanged. -/
theorem onDefinition_is_findDefinition_of_wordAtPoint (env : ServerEnv)
    (params : TextDocumentPositionParams) :
    onDefinition env params =
      env.server.analyzer.findDefinition
        (env.server.analyzer.wordAtPoint params.textDocument.uri
          params.position.line params.position.character) ∧
    (getWordAtPoint env params = none →
      onDefinition env params = env.server.analyzer.findDefinition none) := by
  refine ⟨rfl, fun h => ?_⟩
  show env.server.analyzer.findDefinition (getWordAtPoint env params) =
    env.server.analyzer.findDefinition none
  rw [h]

/-- C7: `onDocumentHighlight` returns one highlight per occurrence reported
    by `findOccurrences`, in the same order, each carrying exactly that
    occurrence's range. -/
theorem onDocumentHighlight_maps_occurrence_ranges (env : ServerEnv)
    (params : TextDocumentPositionParams) :
    onDocumentHighlight env params =
      (env.server.analyzer.findOccurrences params.textDocument.uri
        (getWordAtPoint env params)).map (fun n => { range := n.range }) ∧
    (onDocumentHighlight env params).length =
      (env.server.analyzer.findOccurrences params.textDocument.uri
        (getWordAtPoint env params)).length :=
  ⟨rfl, by simp [onDocumentHighlight]⟩

/-- C8: `onCompletionResolve` is total; for Executable, Builtin and
    ReservedWord items with a successful lookup it only adds the markdown
    documentation field, and for any other type or a rejected lookup the
    item is returned unchanged. -/
theorem onCompletionResolve_total_and_preserving (env : ServerEnv)
    (item : BashCompletionItem) :
    ((onCompletionResolve env item).label = item.label ∧
     (onCompletionResolve env item).kind = item.kind ∧
     (onCompletionResolve env item).data = item.data) ∧
    (∀ doc, item.data.type = CompletionItemDataType.Executable →
      env.server.executables.documentation (some item.data.name) = .ok doc →
      onCompletionResolve env item = getMarkdownCompletionItem item doc) ∧
    (∀ doc, item.data.type = CompletionItemDataType.Builtin →
      env.builtins.documentation (some item.data.name) = .ok doc →
      onCompletionResolve env item = getMarkdownCompletionItem item doc) ∧
    (∀ doc, item.data.type = CompletionItemDataType.ReservedWord →
      env.reservedWords.documentation (some item.data.name) = .ok doc →
      onCompletionResolve env item = getMarkdownCompletionItem item doc) ∧
    (item.data.type = CompletionItemDataType.Symbol →
      onCompletionResolve env item = item) ∧
    (∀ e, item.data.type = CompletionItemDataType.Executable →
      env.server.executables.documentation (some item.data.name) = .error e →
      onCompletionResolve env item = item) ∧
    (∀ e, item.data.type = CompletionItemDataType.Builtin →
      env.builtins.documentation (some item.data.name) = .error e →
      onCompletionResolve env item = item) ∧
    (∀ e, item.data.type = CompletionItemDataType.ReservedWord →
      env.reservedWords.documentation (some item.data.name) = .error e →
      onCompletionResolve env item = item) := by
  refine ⟨?_, fun doc ht hd => ?_, fun doc ht hd => ?_, fun doc ht hd => ?_, fun ht => ?_,
    fun e ht hd => ?_, fun e ht hd => ?_, fun e ht hd => ?_⟩
  · cases ht : item.data.type
    case Symbol => simp [onCompletionResolve, ht]
    case Executable =>
      cases hd : env.server.executables.documentation (some item.data.name) <;>
        simp [onCompletionResolve, ht, hd, getMarkdownCompletionItem, Except.map]
    case Builtin =>
      cases hd : env.builtins.documentation (some item.data.name) <;>
        simp [onCompletionResolve, ht, hd, getMarkdownCompletionItem, Except.map]
    case ReservedWord =>
      cases hd : env.reservedWords.documentation (some item.data.name) <;>
        simp [onCompletionResolve, ht, hd, getMarkdownCompletionItem, Except.map]
  · simp [onCompletionResolve, ht, hd, Except.map]
  · simp [onCompletionResolve, ht, hd, Except.map]
  · simp [onCompletionResolve, ht, hd, Except.map]
  · simp [onCompletionResolve, ht]
  · simp [onCompletionResolve, ht, hd, Except.map]
  · simp [onCompletionResolve, ht, hd, Except.map]
  · simp [onCompletionResolve, ht, hd, Except.map]

/-- C9: below the explainshell block, `onHover` resolves documentation with
    the fixed precedence builtin, then reserved word, then PATH executable,
    and returns null when the word (possibly null itself) is none of them. -/
theorem onHover_documentation_precedence (env : ServerEnv)
    (params : TextDocumentPositionParams) (word : Option Str)
    (hw : getWordAtPoint env params = word)
    (hes : explainshellReturnedNoHover env params) :
    (env.builtins.isBuiltin word = true →
      onHover env params = (env.builtins.documentation word).map fun doc =>
        some { contents := getMarkdownHoverItem doc }) ∧
    (env.builtins.isBuiltin word = false →
      env.reservedWords.isReservedWord word = true →
      onHover env params = (env.reservedWords.documentation word).map fun doc =>
        some { contents := getMarkdownHoverItem doc }) ∧
    (env.builtins.isBuiltin word = false →
      env.reservedWords.isReservedWord word = false →
      env.server.executables.isExecutableOnPATH word = true →
      onHover env params = (env.server.executables.documentation word).map fun doc =>
        some { contents := getMarkdownHoverItem doc }) ∧
    (env.builtins.isBuiltin word = false →
      env.reservedWords.isReservedWord word = false →
      env.server.executables.isExecutableOnPATH word = false →
      onHover env params = .ok none) := by
  have hfall : onHover env params = onHoverFallback env word := by
    rw [← hw]
    simp only [onHover]
    cases hep : env.config.explainshellEndpoint with
    | none => rfl
    | some ep => simp [hes ep hep]
  refine ⟨fun h1 => ?_, fun h1 h2 => ?_, fun h1 h2 h3 => ?_, fun h1 h2 h3 => ?_⟩ <;>
    simp_all [onHoverFallback]

/-- Witness for C9: the concrete builtin `cd` under no explainshell
    endpoint. -/
theorem onHover_documentation_precedence_witness :
    onHover (testEnv (some ['c', 'd']) none errorResponse true) testParams =
      Except.ok (some { contents := getMarkdownHoverItem ['B'] }) := by
  have h := onHover_documentation_precedence
    (testEnv (some ['c', 'd']) none errorResponse true) testParams (some ['c', 'd']) rfl
    (fun ep hep => Option.noConfusion hep)
  exact (h.1 rfl).trans rfl

/-- C10: with an explainshell endpoint configured, an error-status response
    makes `onHover` fall through to the documentation lookups, and the
    explainshell hover is returned exactly when the status is not error. -/
theorem onHover_explainshell_error_falls_through (env : ServerEnv)
    (params : TextDocumentPositionParams) (ep : Str)
    (hep : env.config.explainshellEndpoint = some ep) :
    ((env.server.analyzer.getExplainshellDocumentation params ep).status = errorStr →
      onHover env params = onHoverFallback env (getWordAtPoint env params)) ∧
    ((env.server.analyzer.getExplainshellDocumentation params ep).status ≠ errorStr →
      onHover env params = Except.ok (some { contents :=
        { kind := markdownStr,
          value := env.turndown
            (env.server.analyzer.getExplainshellDocumentation params ep).helpHTML } })) := by
  constructor <;> intro h <;> simp [onHover, hep, h]

/-- Witness for C10: a concrete error-status response falls through to the
    fallback lookups. -/
theorem onHover_explainshell_error_falls_through_witness :
    onHover (testEnv (some ['c', 'd']) (some ['u']) errorResponse true) testParams =
      onHoverFallback (testEnv (some ['c', 'd']) (some ['u']) errorResponse true)
        (getWordAtPoint (testEnv (some ['c', 'd']) (some ['u']) errorResponse true)
          testParams) := by
  have h := onHover_explainshell_error_falls_through
    (testEnv (some ['c', 'd']) (some ['u']) errorResponse true) testParams ['u'] rfl
  exact h.1 rfl
